import Mathlib

/-!
Verification of the cafe_manager consumption-reconciliation and forecasting
engine against its natural-language specification.

The Python source is shallowly embedded over exact rationals (the source
computes with IEEE doubles; every concrete input used below is exactly
representable, so the rational model agrees with the float computation there).
Calendar dates are modelled as day ordinals (natural numbers): the source
parses ISO `YYYY-MM-DD` strings with `datetime.strptime` and only ever
compares, orders, or steps dates by whole days, all of which the ordinal
model reproduces; weekday names cycle with period 7.
-/

namespace CafeManager

/-- Python `statistics.mean`. Callers in the embedded code only apply it to
nonempty lists (the source would raise `StatisticsError` on an empty one). -/
def mean (xs : List ℚ) : ℚ := xs.sum / xs.length

/-- Python `int(q)`: truncation toward zero. -/
def pyInt (q : ℚ) : ℤ := if q < 0 then -⌊-q⌋ else ⌊q⌋

/-- Python `round(q, 1)`. CPython rounds ties to even on binary floats; no
input appearing in this development is a tie at the tenths, so the half-up
convention used here agrees with the source on every value we evaluate. -/
def round1 (q : ℚ) : ℚ := (⌊10 * q + 1/2⌋ : ℚ) / 10

/-! ### usage_calculator.py: data model -/

/-- InventorySnapshot record (usage_calculator.py). Dates are day ordinals. -/
structure Snapshot where
  date : ℕ
  item_id : String
  stock_level : ℚ
  waste_amount : ℚ
  deliveries_received : ℚ
  notes : String
deriving Repr, DecidableEq

/-- One line item of an order in order_history.json. -/
structure LineItem where
  item_id : String
  quantity_received : ℚ
  quantity_ordered : ℚ
deriving Repr, DecidableEq

/-- One order of order_history.json. A `delivery_date` of `none` models both a
missing date and an unparseable one (the source skips either). -/
structure DeliveryOrder where
  status : String
  order_date : ℕ
  delivery_date : Option ℕ
  line_items : List LineItem
deriving Repr, DecidableEq

/-- CalculatedUsage record (usage_calculator.py). -/
structure CalculatedUsage where
  date : ℕ
  item_id : String
  calculated_usage : ℚ
  waste_amount : ℚ
  sales_inferred : Bool
  confidence_level : String
  notes : String
deriving Repr, DecidableEq

/-- UsageCalculator._get_deliveries_between_dates: total quantity received for
`item_id` over delivered orders whose delivery date lies in the open-closed
interval `(start_date, end_date]`. -/
def getDeliveriesBetweenDates (order_history : List DeliveryOrder)
    (start_date end_date : ℕ) (item_id : String) : ℚ :=
  (order_history.map (fun o =>
    if o.status == "delivered" then
      match o.delivery_date with
      | some dd =>
        if start_date < dd ∧ dd ≤ end_date then
          ((o.line_items.filter (fun li => li.item_id == item_id)).map
            (fun li => li.quantity_received)).sum
        else 0
      | none => 0
    else 0)).sum

/-- UsageCalculator._calculate_daily_usage. `inventory_items` maps an item_id
to its `max_capacity`; a failed lookup models the source's
`.get(item_id, {}).get('max_capacity', float('inf'))` default, under which the
high-usage comparison is always false. Each sequential reassignment of the
Python locals becomes a new `let` binding; the file-system side channel
(print on exception) cannot trigger here because dates are well-formed by
construction, so the function is total. -/
def calcDailyUsage (order_history : List DeliveryOrder)
    (inventory_items : List (String × ℚ))
    (prev_snapshot curr_snapshot : Snapshot) (item_id : String) :
    CalculatedUsage :=
  let deliveries := getDeliveriesBetweenDates order_history
    prev_snapshot.date curr_snapshot.date item_id
  let prev_stock := prev_snapshot.stock_level
  let curr_stock := curr_snapshot.stock_level
  let waste := curr_snapshot.waste_amount
  let raw := prev_stock + deliveries - curr_stock - waste
  let calculated_usage := if raw < 0 then 0 else raw
  let confidence := if raw < 0 then "low" else "high"
  let highUsage : Bool :=
    match inventory_items.lookup item_id with
    | some max_capacity => decide (calculated_usage > max_capacity * 0.8)
    | none => false
  let confidence := if highUsage then "medium" else confidence
  let noteList : List String :=
    (if raw < 0 then ["Negative usage calculated - check inventory counts"]
     else [])
    ++ (if deliveries > 0 then
          ["Includes " ++ toString deliveries ++ " units delivered"] else [])
    ++ (if waste > 0 then
          ["Excludes " ++ toString waste ++ " units waste/spoilage"] else [])
    ++ (if highUsage then ["High usage detected - please verify"] else [])
  { date := curr_snapshot.date
    item_id := item_id
    calculated_usage := calculated_usage
    waste_amount := waste
    sales_inferred := true
    confidence_level := confidence
    notes := if noteList = [] then "Calculated from inventory difference"
             else String.intercalate "; " noteList }

/-- One emitted row of InventoryEngine.calculate_daily_consumption (the
numeric fields of the dict built at its lines 142-150; Date, Item_Name and
the Reasoning text are orthogonal to the claims on this variant). -/
structure EngineConsumptionRecord where
  consumption : ℚ
  stock_before_delivery : ℚ
  delivery_amount : ℚ
  previous_stock : ℚ
deriving Repr, DecidableEq

/-- Per-pair body of InventoryEngine.calculate_daily_consumption (lines
112-150): consumption from the forward formula, the negative-consumption
branch that rewrites the emitted delivery amount when no delivery was
recorded, the stock-before-delivery clamp, and the one-decimal rounding of
every emitted numeric field. `delivery_amount` is the ledger lookup for the
current date (summed by date upstream). -/
def engineConsumptionStep (previous_stock current_stock delivery_amount : ℚ) :
    EngineConsumptionRecord :=
  let consumption := previous_stock + delivery_amount - current_stock
  let delivery_amount2 :=
    if consumption < 0 ∧ ¬ delivery_amount > 0 then
      current_stock - previous_stock
    else delivery_amount
  let consumption2 := if consumption < 0 then 0 else consumption
  let stock_before_delivery := current_stock - delivery_amount2
  let stock_before_delivery2 :=
    if stock_before_delivery < 0 then 0 else stock_before_delivery
  { consumption := round1 consumption2
    stock_before_delivery := round1 stock_before_delivery2
    delivery_amount := round1 delivery_amount2
    previous_stock := round1 previous_stock }

/-! ### src/forecasting_engine.py -/

/-- Weekday names as produced by `strftime('%A')`, anchored so that day
ordinal 0 is a Monday. -/
def weekNames : List String :=
  ["Monday", "Tuesday", "Wednesday", "Thursday", "Friday", "Saturday",
   "Sunday"]

/-- Weekday name of a day ordinal. -/
def weekdayName (d : ℕ) : String := weekNames.getD (d % 7) "Monday"

/-- One record of daily_usage.json (the fields the forecasting engine
reads). -/
structure UsageRec where
  date : ℕ
  item_id : String
  quantity_used : ℚ
deriving Repr, DecidableEq

/-- Python `statistics.variance` (sample variance, denominator n - 1); the
source's `statistics.stdev` is its square root. -/
def sampleVariance (xs : List ℚ) : ℚ :=
  ((xs.map (fun x => (x - mean xs) ^ 2)).sum) / ((xs.length : ℚ) - 1)

/-- The volatility expression `statistics.stdev(total_usage) /
statistics.mean(total_usage) if total_usage else 0` of
analyze_usage_patterns. The square root of the sample variance is
irrational in general, so the model carries the SQUARE of the coefficient
of variation; the raising behaviour — the only aspect any claim touches —
is exactly the source's: `stdev` raises StatisticsError below 2 points and
the division raises ZeroDivisionError when the mean is 0 (`stdev` itself is
total on 2+ points). -/
def volatility? (xs : List ℚ) : Except String ℚ :=
  if xs = [] then .ok 0
  else if xs.length < 2 then .error "StatisticsError"
  else if mean xs = 0 then .error "ZeroDivisionError"
  else .ok (sampleVariance xs / (mean xs) ^ 2)

/-- UsagePattern record. `volatility` stores the squared coefficient of
variation (see `volatility?`); `last_updated` (a wall-clock timestamp) is
outside the model. -/
structure UsagePattern where
  item_id : String
  daily_averages : List (String × ℚ)
  trend_factor : ℚ
  seasonal_multiplier : ℚ
  volatility : ℚ
deriving Repr, DecidableEq

/-- ForecastingEngine._calculate_trend: ratio of the recent-half mean to the
older-half mean of the date-sorted history, 1.0 when the older mean is 0,
clamped to [0.5, 2.0]. -/
def calculateTrend (usages : List UsageRec) : ℚ :=
  if usages.length < 2 then 1
  else
    let sorted := List.insertionSort (fun a b => a.date ≤ b.date) usages
    let half_point := sorted.length / 2
    let older_avg := mean ((sorted.take half_point).map
      (fun u => u.quantity_used))
    let recent_avg := mean ((sorted.drop half_point).map
      (fun u => u.quantity_used))
    if older_avg = 0 then 1
    else max 0.5 (min 2 (recent_avg / older_avg))

/-- Per-weekday averages of analyze_usage_patterns: mean per weekday present
in the history, then every absent weekday backfilled with the overall mean.
The Python accumulates each weekday's values in one pass into a dict; the
filter below collects the same values in the same order, and the appended
tail mirrors the backfill loop over the seven day names. -/
def dailyAverages (usages : List UsageRec) : List (String × ℚ) :=
  let presentDays := (usages.map (fun u => weekdayName u.date)).dedup
  let overall_avg := mean (usages.map (fun u => u.quantity_used))
  presentDays.map (fun d =>
    (d, mean ((usages.filter (fun u => weekdayName u.date == d)).map
      (fun u => u.quantity_used))))
  ++ (weekNames.filter (fun d => decide (d ∉ presentDays))).map
      (fun d => (d, overall_avg))

/-- Body of the per-item block of analyze_usage_patterns, producing one
UsagePattern or propagating the exception from the volatility line. -/
def mkPattern (item_id : String) (usages : List UsageRec) :
    Except String UsagePattern :=
  let total_usage := usages.map (fun u => u.quantity_used)
  match volatility? total_usage with
  | .error e => .error e
  | .ok v => .ok
      { item_id := item_id
        daily_averages := dailyAverages usages
        trend_factor := calculateTrend usages
        seasonal_multiplier := 1
        volatility := v }

/-- Grouping of the usage history by item_id (the defaultdict loop of
analyze_usage_patterns): each distinct item_id paired with its records in
history order. -/
def groupByItem (usage_history : List UsageRec) :
    List (String × List UsageRec) :=
  ((usage_history.map (fun u => u.item_id)).dedup).map
    (fun i => (i, usage_history.filter (fun u => u.item_id == i)))

/-- Item loop of analyze_usage_patterns: items with fewer than 3 data points
are skipped; the first failing volatility computation aborts the whole call
(the source has no try/except around it). -/
def analyzeAux : List (String × List UsageRec) →
    Except String (List (String × UsagePattern))
  | [] => .ok []
  | (i, us) :: rest =>
    if us.length < 3 then analyzeAux rest
    else
      match mkPattern i us with
      | .error e => .error e
      | .ok p =>
        match analyzeAux rest with
        | .error e => .error e
        | .ok ps => .ok ((i, p) :: ps)

/-- ForecastingEngine.analyze_usage_patterns. -/
def analyzeUsagePatterns (usage_history : List UsageRec) :
    Except String (List (String × UsagePattern)) :=
  analyzeAux (groupByItem usage_history)

/-- ForecastingEngine.predict_usage: with a pattern, sum the trend- and
season-adjusted weekday averages over the next `days_ahead` calendar days
from `today`; without one, fall back to the plain historical mean times
`days_ahead`, or 0 when the item has no usage history at all. -/
def predictUsage (patterns : List (String × UsagePattern))
    (usage_history : List UsageRec) (today : ℕ) (item_id : String)
    (days_ahead : ℕ) : ℚ :=
  match patterns.lookup item_id with
  | none =>
    let item_usage := usage_history.filter (fun u => u.item_id == item_id)
    if item_usage = [] then 0
    else mean (item_usage.map (fun u => u.quantity_used)) * days_ahead
  | some pattern =>
    ((List.range days_ahead).map (fun i =>
      ((pattern.daily_averages.lookup (weekdayName (today + i))).getD 0)
        * pattern.trend_factor * pattern.seasonal_multiplier)).sum

/-- ForecastingEngine.calculate_reorder_frequency: average interval (in
days, truncated to int) and average ordered quantity over the item's past
orders; (14, 0.0) when fewer than two orders exist. -/
def reorderFrequency (order_history : List DeliveryOrder)
    (item_id : String) : ℕ × ℚ :=
  let item_orders := (order_history.map (fun o =>
    (o.line_items.filter (fun li => li.item_id == item_id)).map
      (fun li => (o.order_date, li.quantity_ordered)))).flatten
  if item_orders.length < 2 then (14, 0)
  else
    let sorted := List.insertionSort (fun a b => a.1 ≤ b.1) item_orders
    let intervals := (sorted.zip sorted.tail).map
      (fun ab => (((ab.2.1 : ℤ) - (ab.1.1 : ℤ) : ℤ) : ℚ))
    let avg_interval := if intervals = [] then (14:ℚ) else mean intervals
    let avg_quantity := mean (item_orders.map (fun x => x.2))
    ((pyInt avg_interval).toNat, avg_quantity)

/-- InventoryItem record (the fields generate_order_recommendations
reads). -/
structure InventoryItem where
  item_id : String
  name : String
  current_stock : ℚ
  min_threshold : ℚ
  max_capacity : ℚ
  cost_per_unit : ℚ
  supplier_id : String
  lead_time_days : ℚ
deriving Repr, DecidableEq

/-- OrderRecommendation record. The free-text `reasoning` field (built by
float string formatting) is outside the model; no claim reads it. -/
structure OrderRecommendation where
  item_id : String
  item_name : String
  current_stock : ℚ
  projected_usage : ℚ
  days_until_reorder : ℤ
  recommended_quantity : ℚ
  urgency_level : String
  supplier : String
  estimated_cost : ℚ
deriving Repr, DecidableEq

/-- Days-until-reorder computation of generate_order_recommendations. The
rational division by a zero `avg_reorder_days` yields 0 in the model; in the
source that branch is unreachable because a prediction over 0 days is always
0, which the first guard catches. -/
def daysUntilReorder (item : InventoryItem) (predicted_usage : ℚ)
    (avg_reorder_days : ℕ) : ℚ :=
  if predicted_usage = 0 then 999
  else
    let daily_usage := predicted_usage / (avg_reorder_days : ℚ)
    if daily_usage > 0 then
      max 0 ((item.current_stock - item.min_threshold) / daily_usage)
    else 999

/-- Urgency classification of generate_order_recommendations (first match
wins). -/
def urgencyFor (item : InventoryItem) (avg_reorder_days : ℕ)
    (days_until_reorder : ℚ) : String :=
  if item.current_stock ≤ item.min_threshold then "critical"
  else if days_until_reorder ≤ item.lead_time_days then "warning"
  else if days_until_reorder ≤ (avg_reorder_days : ℚ) * 1.2 then "normal"
  else "stock_up"

/-- Recommended quantity of generate_order_recommendations BEFORE the
max-capacity clamp, branch for branch with `urgencyFor`. -/
def recommendedQtyPreClamp (item : InventoryItem) (avg_reorder_days : ℕ)
    (avg_quantity : ℚ) (days_until_reorder : ℚ) : ℚ :=
  if item.current_stock ≤ item.min_threshold then
    max avg_quantity (item.max_capacity * 0.8)
  else if days_until_reorder ≤ item.lead_time_days then avg_quantity
  else if days_until_reorder ≤ (avg_reorder_days : ℚ) * 1.2 then avg_quantity
  else avg_quantity * 0.7

/-- Per-item body of generate_order_recommendations: quantity clamped by
`max_capacity - current_stock`, record emitted only when the clamped
quantity is positive. -/
def recommendationFor (patterns : List (String × UsagePattern))
    (usage_history : List UsageRec) (order_history : List DeliveryOrder)
    (suppliers : List (String × String)) (today : ℕ)
    (item : InventoryItem) : Option OrderRecommendation :=
  let fr := reorderFrequency order_history item.item_id
  let predicted := predictUsage patterns usage_history today item.item_id fr.1
  let days := daysUntilReorder item predicted fr.1
  let recommended_qty := recommendedQtyPreClamp item fr.1 fr.2 days
  let max_can_order := item.max_capacity - item.current_stock
  let recommended_qty := min recommended_qty max_can_order
  if recommended_qty > 0 then
    some { item_id := item.item_id
           item_name := item.name
           current_stock := item.current_stock
           projected_usage := predicted
           days_until_reorder := pyInt days
           recommended_quantity := recommended_qty
           urgency_level := urgencyFor item fr.1 days
           supplier := (suppliers.lookup item.supplier_id).getD "Unknown"
           estimated_cost := recommended_qty * item.cost_per_unit }
  else none

/-- Sort rank of an urgency label (the urgency_order dict, default 3). -/
def urgencyRank (u : String) : ℕ :=
  if u == "critical" then 1
  else if u == "warning" then 2
  else if u == "normal" then 3
  else if u == "stock_up" then 4
  else 3

/-- ForecastingEngine.generate_order_recommendations over the item list,
sorted by ascending urgency rank then descending estimated cost (a stable
sort, like Python's). -/
def generateOrderRecommendations (patterns : List (String × UsagePattern))
    (usage_history : List UsageRec) (order_history : List DeliveryOrder)
    (suppliers : List (String × String)) (today : ℕ)
    (items : List InventoryItem) : List OrderRecommendation :=
  List.insertionSort (fun a b =>
      urgencyRank a.urgency_level < urgencyRank b.urgency_level ∨
        (urgencyRank a.urgency_level = urgencyRank b.urgency_level ∧
          b.estimated_cost ≤ a.estimated_cost))
    (items.filterMap
      (recommendationFor patterns usage_history order_history suppliers
        today))

/-- Recommended-quantity formula of the capacity-target variant,
InventoryEngine.generate_recommendations lines 280-289: 80%-of-capacity
target plus lead-time consumption, rounded to one decimal and floored at 0
— with NO clamp to `max_capacity - current_stock`. -/
def engineRecommendedQuantity (current_stock max_capacity avg_consumption
    lead_time : ℚ) : ℚ :=
  let target_stock := max_capacity * 0.8
  let consumption_during_lead_time := avg_consumption * lead_time
  max 0 (round1 (target_stock - current_stock + consumption_during_lead_time))

/-! ### audit_inventory.py -/

/-- One row of daily_consumption.csv as the auditor reads it. -/
structure ConsumptionRow where
  date : ℕ
  item : String
  consumption : ℚ
  delivery_amount : ℚ
  previous_stock : ℚ
  stock_before_delivery : ℚ
deriving Repr, DecidableEq

/-- One row of daily_stock_levels.csv. -/
structure StockRow where
  date : ℕ
  item : String
  current_stock : ℚ
deriving Repr, DecidableEq

/-- One row of deliveries.csv. -/
structure DeliveryRow where
  date : ℕ
  item : String
  delivery_amount : ℚ
deriving Repr, DecidableEq

/-- One data_validation_errors entry (field name and offending value). -/
structure ValIssue where
  date : ℕ
  item : String
  field : String
  value : ℚ
deriving Repr, DecidableEq

/-- One calculation_errors entry. -/
structure CalcError where
  date : ℕ
  item : String
  previous_stock : ℚ
  consumption : ℚ
  delivery : ℚ
  expected_stock : ℚ
  actual_stock : ℚ
deriving Repr, DecidableEq

/-- One missing_stock_records entry. -/
structure MissingStock where
  date : ℕ
  item : String
deriving Repr, DecidableEq

/-- One missing_deliveries entry. -/
structure MissingDelivery where
  date : ℕ
  item : String
  delivery_in_file : ℚ
deriving Repr, DecidableEq

/-- One negative_values entry. -/
structure NegValue where
  date : ℕ
  item : String
  current_stock : ℚ
deriving Repr, DecidableEq

/-- The issues dict returned by InventoryAuditor.audit_stock_consistency. -/
structure AuditIssues where
  calculation_errors : List CalcError
  missing_stock_records : List MissingStock
  negative_values : List NegValue
  missing_deliveries : List MissingDelivery
  data_validation_errors : List ValIssue
deriving Repr, DecidableEq

/-- Validation pass of audit_stock_consistency (lines 48-91): each negative
field of a consumption row yields one Critical data_validation_error, in the
source's field order. -/
def rowValidationIssues (r : ConsumptionRow) : List ValIssue :=
  (if r.consumption < 0 then
    [⟨r.date, r.item, "Consumption", r.consumption⟩] else [])
  ++ (if r.delivery_amount < 0 then
    [⟨r.date, r.item, "Delivery_Amount", r.delivery_amount⟩] else [])
  ++ (if r.stock_before_delivery < 0 then
    [⟨r.date, r.item, "Stock_Before_Delivery", r.stock_before_delivery⟩]
    else [])
  ++ (if r.previous_stock < 0 then
    [⟨r.date, r.item, "Previous_Stock", r.previous_stock⟩] else [])

/-- Stock rows of one item, date-sorted (pandas sort_values on the filtered
frame; a stable sort, like pandas' default). -/
def itemStockSorted (stock : List StockRow) (item : String) : List StockRow :=
  List.insertionSort (fun a b => a.date ≤ b.date)
    (stock.filter (fun s => s.item == item))

/-- The auditor's per-row stock lookup: first date-matching row of the
item's date-sorted stock frame (`stock_record.iloc[0]['Current_Stock']`),
none when the frame slice is empty. -/
def stockLookup (stock : List StockRow) (item : String) (date : ℕ) :
    Option ℚ :=
  (((itemStockSorted stock item).filter (fun s => s.date == date)).head?).map
    (fun s => s.current_stock)

/-- The auditor's ledger sum for (item, date):
`delivery_record['Delivery_Amount'].sum()` over the item's date-sorted
deliveries frame sliced to the date (0 when empty). -/
def deliverySum (deliveries : List DeliveryRow) (item : String) (date : ℕ) :
    ℚ :=
  ((((List.insertionSort (fun a b : DeliveryRow => a.date ≤ b.date)
      (deliveries.filter (fun dl => dl.item == item))).filter
    (fun dl => dl.date == date)).map (fun dl => dl.delivery_amount)).sum)

/-- The delivery amount the auditor uses for recomputation: the ledger sum
when it is positive and the consumption row's own delivery field is 0,
otherwise the row's own field. -/
def resolvedDelivery (deliveries : List DeliveryRow) (r : ConsumptionRow) :
    ℚ :=
  let actual := deliverySum deliveries r.item r.date
  if actual > 0 ∧ r.delivery_amount = 0 then actual else r.delivery_amount

/-- Per-row body of the grouped loop of audit_stock_consistency (lines
100-162): at most one missing_stock_record (which skips the rest), one
missing_delivery, one calculation_error (tolerance 0.01) and one
negative_value per consumption row. -/
def rowAudit (stock : List StockRow) (deliveries : List DeliveryRow)
    (r : ConsumptionRow) :
    Option MissingStock × Option MissingDelivery × Option CalcError ×
      Option NegValue :=
  match stockLookup stock r.item r.date with
  | none => (some ⟨r.date, r.item⟩, none, none, none)
  | some current_stock =>
    let actual := deliverySum deliveries r.item r.date
    let missing : Option MissingDelivery :=
      if actual > 0 ∧ r.delivery_amount = 0 then some ⟨r.date, r.item, actual⟩
      else none
    let delivery :=
      if actual > 0 ∧ r.delivery_amount = 0 then actual
      else r.delivery_amount
    let expected_stock := r.previous_stock - r.consumption + delivery
    let calcErr : Option CalcError :=
      if |expected_stock - current_stock| > 0.01 then
        some ⟨r.date, r.item, r.previous_stock, r.consumption, delivery,
          expected_stock, current_stock⟩
      else none
    let negv : Option NegValue :=
      if current_stock < 0 then some ⟨r.date, r.item, current_stock⟩ else none
    (none, missing, calcErr, negv)

/-- Item names in traversal order (`consumption_df['Item_Name'].unique()`;
only the one-occurrence-per-name property matters downstream). -/
def uniqueItems (cons : List ConsumptionRow) : List String :=
  (cons.map (fun r => r.item)).dedup

/-- A single item's consumption rows, date-sorted. -/
def itemConsumptionSorted (cons : List ConsumptionRow) (item : String) :
    List ConsumptionRow :=
  List.insertionSort (fun a b => a.date ≤ b.date)
    (cons.filter (fun r => r.item == item))

/-- InventoryAuditor.audit_stock_consistency: the five issue lists. Each
grouped list is the concatenation, over items in unique order and rows in
date order, of the per-row contributions — exactly the order the Python
appends them in. -/
def auditStockConsistency (cons : List ConsumptionRow)
    (stock : List StockRow) (deliveries : List DeliveryRow) : AuditIssues :=
  { data_validation_errors := (cons.map rowValidationIssues).flatten
    missing_stock_records := ((uniqueItems cons).map (fun it =>
      (itemConsumptionSorted cons it).filterMap
        (fun r => (rowAudit stock deliveries r).1))).flatten
    missing_deliveries := ((uniqueItems cons).map (fun it =>
      (itemConsumptionSorted cons it).filterMap
        (fun r => (rowAudit stock deliveries r).2.1))).flatten
    calculation_errors := ((uniqueItems cons).map (fun it =>
      (itemConsumptionSorted cons it).filterMap
        (fun r => (rowAudit stock deliveries r).2.2.1))).flatten
    negative_values := ((uniqueItems cons).map (fun it =>
      (itemConsumptionSorted cons it).filterMap
        (fun r => (rowAudit stock deliveries r).2.2.2))).flatten }

/-- Number of calculation_errors the auditor reports for one (date, item). -/
def calcErrorCount (issues : AuditIssues) (date : ℕ) (item : String) : ℕ :=
  issues.calculation_errors.countP (fun e => e.date == date && e.item == item)

/-- UsageCalculator.add_inventory_snapshot, functional core: the stored list
after the write (file persistence is outside the model). The source drops
every stored snapshot whose date equals the new date, appends the new
records, and stably sorts by date. -/
def addInventorySnapshot (snapshots : List Snapshot) (date : ℕ)
    (inventory_data : List Snapshot) : List Snapshot :=
  let kept := snapshots.filter (fun s => decide (s.date ≠ date))
  let added := inventory_data.map (fun e => { e with date := date })
  List.insertionSort (fun a b => a.date ≤ b.date) (kept ++ added)

end CafeManager

namespace CafeManager

/-- Helper: full evaluation of the reconciler's record in the negative-raw
case, for an item with a nonnegative recorded capacity. -/
theorem calcDailyUsage_negative_case
    (order_history : List DeliveryOrder) (inventory_items : List (String × ℚ))
    (prev curr : Snapshot) (item_id : String) (c : ℚ)
    (hcap : inventory_items.lookup item_id = some c) (hc : 0 ≤ c)
    (hraw : prev.stock_level
      + getDeliveriesBetweenDates order_history prev.date curr.date item_id
      - curr.stock_level - curr.waste_amount < 0) :
    calcDailyUsage order_history inventory_items prev curr item_id =
    { date := curr.date
      item_id := item_id
      calculated_usage := 0
      waste_amount := curr.waste_amount
      sales_inferred := true
      confidence_level := "low"
      notes := String.intercalate "; "
        (["Negative usage calculated - check inventory counts"]
         ++ (if getDeliveriesBetweenDates order_history prev.date curr.date
              item_id > 0 then
              ["Includes " ++ toString (getDeliveriesBetweenDates order_history
                prev.date curr.date item_id) ++ " units delivered"] else [])
         ++ (if curr.waste_amount > 0 then
              ["Excludes " ++ toString curr.waste_amount
                ++ " units waste/spoilage"] else [])) } := by
  have hhi : ((0:ℚ) > c * 0.8) = False := by
    apply eq_false
    push_neg
    positivity
  have e1 : (prev.stock_level
      + getDeliveriesBetweenDates order_history prev.date curr.date item_id
      - curr.stock_level - curr.waste_amount < 0) = True := eq_true hraw
  simp only [calcDailyUsage, e1, if_true, hcap, hhi, gt_iff_lt,
    Bool.false_eq_true, if_false, List.append_nil, List.singleton_append,
    List.cons_append, reduceCtorEq, ite_false, decide_eq_true_eq]

/-- Claim C1 (reconciliation inverse): if `curr.stock_level =
prev.stock_level + delivery - usage - waste` for some `usage ≥ 0`, where
`delivery` is the ledger sum over the open-closed date interval, then the
reconciler recovers `usage` within tolerance 1e-6, and confidence is "high"
whenever `usage ≤ 0.8 * max_capacity`. -/
theorem reconciliation_inverse
    (order_history : List DeliveryOrder) (inventory_items : List (String × ℚ))
    (prev curr : Snapshot) (item_id : String) (usage max_capacity : ℚ)
    (hcap : inventory_items.lookup item_id = some max_capacity)
    (husage : 0 ≤ usage)
    (hbal : curr.stock_level = prev.stock_level
      + getDeliveriesBetweenDates order_history prev.date curr.date item_id
      - usage - curr.waste_amount) :
    |(calcDailyUsage order_history inventory_items prev curr
        item_id).calculated_usage - usage| ≤ 1/1000000 ∧
    (usage ≤ 0.8 * max_capacity →
      (calcDailyUsage order_history inventory_items prev curr
        item_id).confidence_level = "high") := by
  have hraw : prev.stock_level
      + getDeliveriesBetweenDates order_history prev.date curr.date item_id
      - curr.stock_level - curr.waste_amount = usage := by
    rw [hbal]; ring
  have h0 : ¬ usage < 0 := by linarith
  refine ⟨?_, fun hle => ?_⟩
  · simp [calcDailyUsage, hraw, h0]
  · have h1 : ¬ usage > max_capacity * 0.8 := by linarith
    simp [calcDailyUsage, hraw, hcap, h0, h1]

theorem reconciliation_inverse_witness :
    ([("I1", (100:ℚ))] : List (String × ℚ)).lookup "I1" = some 100 ∧
    (0:ℚ) ≤ 2 ∧
    (⟨1, "I1", 8, 0, 0, ""⟩ : Snapshot).stock_level =
      (⟨0, "I1", 10, 0, 0, ""⟩ : Snapshot).stock_level
      + getDeliveriesBetweenDates [] 0 1 "I1" - 2 - 0 ∧
    |(calcDailyUsage [] [("I1", (100:ℚ))] ⟨0, "I1", 10, 0, 0, ""⟩
        ⟨1, "I1", 8, 0, 0, ""⟩ "I1").calculated_usage - 2| ≤ 1/1000000 := by
  refine ⟨by simp [List.lookup], by norm_num, by
    simp [getDeliveriesBetweenDates]; norm_num, ?_⟩
  exact (reconciliation_inverse [] [("I1", (100:ℚ))] ⟨0, "I1", 10, 0, 0, ""⟩
    ⟨1, "I1", 8, 0, 0, ""⟩ "I1" 2 100 (by simp [List.lookup]) (by norm_num)
    (by simp [getDeliveriesBetweenDates]; norm_num)).1

/-- Claim C2 (non-negativity): the emitted calculated_usage is never negative,
and whenever the raw formula `prev + deliveries - curr - waste` is negative
the emitted value is exactly 0 with confidence "low". The hypothesis is the
data-model invariant that a recorded max_capacity is nonnegative (the source
compares the clamped 0 against `max_capacity * 0.8`, so a nonsensical
negative capacity would overwrite "low" with "medium"). -/
theorem usage_nonnegativity
    (order_history : List DeliveryOrder) (inventory_items : List (String × ℚ))
    (prev curr : Snapshot) (item_id : String)
    (hcap : ∀ c, inventory_items.lookup item_id = some c → 0 ≤ c) :
    0 ≤ (calcDailyUsage order_history inventory_items prev curr
      item_id).calculated_usage ∧
    (prev.stock_level
        + getDeliveriesBetweenDates order_history prev.date curr.date item_id
        - curr.stock_level - curr.waste_amount < 0 →
      (calcDailyUsage order_history inventory_items prev curr
        item_id).calculated_usage = 0 ∧
      (calcDailyUsage order_history inventory_items prev curr
        item_id).confidence_level = "low") := by
  by_cases hr : prev.stock_level
      + getDeliveriesBetweenDates order_history prev.date curr.date item_id
      - curr.stock_level - curr.waste_amount < 0
  · refine ⟨?_, fun _ => ⟨?_, ?_⟩⟩ <;>
    · cases hcl : inventory_items.lookup item_id with
      | none => simp [calcDailyUsage, hr, hcl]
      | some c =>
        have hc := hcap c hcl
        have h1 : ¬ ((0:ℚ) > c * 0.8) := by
          push_neg
          have : (0:ℚ) ≤ c * 0.8 := by positivity
          linarith
        simp [calcDailyUsage, hr, hcl, h1]
  · have hge : 0 ≤ prev.stock_level
        + getDeliveriesBetweenDates order_history prev.date curr.date item_id
        - curr.stock_level - curr.waste_amount := not_lt.mp hr
    refine ⟨?_, fun h => absurd h hr⟩
    simp [calcDailyUsage, hr, hge]

theorem usage_nonnegativity_witness :
    ((7:ℚ) + getDeliveriesBetweenDates [] 0 1 "I1" - 15 - 0 < 0) ∧
    (calcDailyUsage [] [("I1", (100:ℚ))] ⟨0, "I1", 7, 0, 0, ""⟩
      ⟨1, "I1", 15, 0, 0, ""⟩ "I1").calculated_usage = 0 ∧
    (calcDailyUsage [] [("I1", (100:ℚ))] ⟨0, "I1", 7, 0, 0, ""⟩
      ⟨1, "I1", 15, 0, 0, ""⟩ "I1").confidence_level = "low" := by
  have hcap : ∀ c, ([("I1", (100:ℚ))] : List (String × ℚ)).lookup "I1" =
      some c → 0 ≤ c := by
    intro c hc
    simp [List.lookup] at hc
    rw [← hc]
    norm_num
  have hneg : ((7:ℚ) + getDeliveriesBetweenDates [] 0 1 "I1" - 15 - 0 < 0) := by
    simp [getDeliveriesBetweenDates]; norm_num
  have h := (usage_nonnegativity [] [("I1", (100:ℚ))] ⟨0, "I1", 7, 0, 0, ""⟩
    ⟨1, "I1", 15, 0, 0, ""⟩ "I1" hcap).2 hneg
  exact ⟨hneg, h⟩

/-- Helper: every weekday name of a day ordinal is one of the seven
weekday names. -/
theorem weekdayName_mem (n : ℕ) : weekdayName n ∈ weekNames := by
  have h : n % 7 < weekNames.length := by
    have : n % 7 < 7 := Nat.mod_lt _ (by norm_num)
    simpa [weekNames] using this
  rw [weekdayName, List.getD_eq_getElem _ _ h]
  exact List.getElem_mem h

/-- Helper: association-list lookup misses every key outside the key list. -/
theorem lookup_map_pair_eq_none {l : List String} {f : String → ℚ}
    {d : String} (h : d ∉ l) :
    ((l.map (fun x => (x, f x))).lookup d) = none := by
  induction l with
  | nil => rfl
  | cons a t ih =>
    rw [List.mem_cons, not_or] at h
    have hne : (d == a) = false := beq_eq_false_iff_ne.mpr h.1
    simp [List.lookup_cons, hne, ih h.2]

/-- Helper: association-list lookup over a constant-valued map finds the
constant at every member key. -/
theorem lookup_map_const_mem {l : List String} {v : ℚ} {d : String}
    (h : d ∈ l) :
    ((l.map (fun x => (x, v))).lookup d) = some v := by
  induction l with
  | nil => cases h
  | cons a t ih =>
    by_cases hd : d = a
    · subst hd
      simp [List.lookup_cons]
    · have hne : (d == a) = false := beq_eq_false_iff_ne.mpr hd
      rcases List.mem_cons.mp h with h' | h'
      · exact absurd h' hd
      · simp [List.lookup_cons, hne, ih h']

/-- Helper: the key list of `dailyAverages` is a permutation of the seven
weekday names — exactly 7 keys, Monday through Sunday. -/
theorem dailyAverages_keys_perm (usages : List UsageRec) :
    ((dailyAverages usages).map Prod.fst).Perm weekNames := by
  simp only [dailyAverages, List.map_append, List.map_map]
  have hfst : ∀ (l : List String) (g : String → ℚ),
      l.map (Prod.fst ∘ fun d => (d, g d)) = l := by
    intro l g
    induction l with
    | nil => rfl
    | cons a t ih => simp [ih]
  rw [hfst, hfst]
  set presentDays := (usages.map (fun u => weekdayName u.date)).dedup with hp
  have hnp : presentDays.Nodup := List.nodup_dedup _
  have hnw : weekNames.Nodup := by decide
  rw [List.perm_ext_iff_of_nodup]
  · intro a
    constructor
    · intro ha
      rcases List.mem_append.mp ha with h | h
      · rw [hp, List.mem_dedup] at h
        obtain ⟨u, _, hu⟩ := List.mem_map.mp h
        exact hu ▸ weekdayName_mem u.date
      · exact (List.mem_filter.mp h).1
    · intro ha
      by_cases hin : a ∈ presentDays
      · exact List.mem_append_left _ hin
      · exact List.mem_append_right _
          (List.mem_filter.mpr ⟨ha, by simpa using hin⟩)
  · refine List.Nodup.append hnp (hnw.filter _) ?_
    intro a hain haf
    have := (List.mem_filter.mp haf).2
    simp only [decide_eq_true_eq] at this
    exact this hain
  · exact hnw

/-- Helper: a weekday absent from the item's history is backfilled with the
overall mean in `dailyAverages`. -/
theorem dailyAverages_lookup_absent (usages : List UsageRec) (d : String)
    (hw : d ∈ weekNames)
    (habs : d ∉ usages.map (fun u => weekdayName u.date)) :
    (dailyAverages usages).lookup d =
      some (mean (usages.map (fun u => u.quantity_used))) := by
  have hnp : d ∉ (usages.map (fun u => weekdayName u.date)).dedup := by
    rw [List.mem_dedup]; exact habs
  simp only [dailyAverages]
  rw [List.lookup_append, lookup_map_pair_eq_none hnp,
    lookup_map_const_mem (List.mem_filter.mpr ⟨hw, by simpa using hnp⟩)]
  rfl

/-- Helper: a successfully built pattern carries the weekday averages of its
history. -/
theorem mkPattern_ok (i : String) (us : List UsageRec) (p : UsagePattern)
    (h : mkPattern i us = .ok p) :
    p.daily_averages = dailyAverages us := by
  simp only [mkPattern] at h
  cases hv : volatility? (us.map (fun u => u.quantity_used)) with
  | error e => rw [hv] at h; exact absurd h (by simp)
  | ok v =>
    rw [hv] at h
    injection h with h'
    rw [← h']

/-- Helper: the analysis produces no pattern for an item_id outside the
grouped key list. -/
theorem analyzeAux_lookup_absent (gs : List (String × List UsageRec))
    (ps : List (String × UsagePattern)) (i : String)
    (hok : analyzeAux gs = .ok ps) (hi : i ∉ gs.map Prod.fst) :
    ps.lookup i = none := by
  induction gs generalizing ps with
  | nil =>
    simp only [analyzeAux] at hok
    injection hok with h
    rw [← h]
    rfl
  | cons g rest ih =>
    obtain ⟨j, vs⟩ := g
    rw [List.map_cons, List.mem_cons, not_or] at hi
    simp only [analyzeAux] at hok
    split_ifs at hok with hlen
    · exact ih ps hok hi.2
    · cases hmk : mkPattern j vs with
      | error e => rw [hmk] at hok; exact absurd hok (by simp)
      | ok p =>
        rw [hmk] at hok
        cases har : analyzeAux rest with
        | error e => rw [har] at hok; exact absurd hok (by simp)
        | ok ps' =>
          rw [har] at hok
          injection hok with h
          rw [← h]
          have hne : (i == j) = false := beq_eq_false_iff_ne.mpr hi.1
          simp [List.lookup_cons, hne, ih ps' har hi.2]

/-- Helper: the analysis produces no pattern for an item with fewer than 3
data points. -/
theorem analyzeAux_lookup_short (gs : List (String × List UsageRec))
    (ps : List (String × UsagePattern)) (i : String) (us : List UsageRec)
    (hok : analyzeAux gs = .ok ps) (hnd : (gs.map Prod.fst).Nodup)
    (hmem : (i, us) ∈ gs) (hlen : us.length < 3) :
    ps.lookup i = none := by
  induction gs generalizing ps with
  | nil => cases hmem
  | cons g rest ih =>
    obtain ⟨j, vs⟩ := g
    rw [List.map_cons, List.nodup_cons] at hnd
    simp only [analyzeAux] at hok
    rcases List.mem_cons.mp hmem with heq | hmem'
    · injection heq with h1 h2
      subst h1
      subst h2
      rw [if_pos hlen] at hok
      exact analyzeAux_lookup_absent rest ps i hok hnd.1
    · split_ifs at hok with hl
      · exact ih ps hok hnd.2 hmem'
      · cases hmk : mkPattern j vs with
        | error e => rw [hmk] at hok; exact absurd hok (by simp)
        | ok p =>
          rw [hmk] at hok
          cases har : analyzeAux rest with
          | error e => rw [har] at hok; exact absurd hok (by simp)
          | ok ps' =>
            rw [har] at hok
            injection hok with h
            rw [← h]
            have hij : i ≠ j := by
              intro e
              exact hnd.1 (e ▸ List.mem_map.mpr ⟨(i, us), hmem', rfl⟩)
            have hne : (i == j) = false := beq_eq_false_iff_ne.mpr hij
            simp [List.lookup_cons, hne, ih ps' har hnd.2 hmem']

/-- Helper: for a qualifying item (3 or more points), a successful analysis
run contains exactly its built pattern. -/
theorem analyzeAux_lookup_found (gs : List (String × List UsageRec))
    (ps : List (String × UsagePattern)) (i : String) (us : List UsageRec)
    (hok : analyzeAux gs = .ok ps) (hnd : (gs.map Prod.fst).Nodup)
    (hmem : (i, us) ∈ gs) (hlen : 3 ≤ us.length) :
    ∃ p, mkPattern i us = .ok p ∧ ps.lookup i = some p := by
  induction gs generalizing ps with
  | nil => cases hmem
  | cons g rest ih =>
    obtain ⟨j, vs⟩ := g
    rw [List.map_cons, List.nodup_cons] at hnd
    simp only [analyzeAux] at hok
    rcases List.mem_cons.mp hmem with heq | hmem'
    · injection heq with h1 h2
      subst h1
      subst h2
      rw [if_neg (by omega)] at hok
      cases hmk : mkPattern i us with
      | error e => rw [hmk] at hok; exact absurd hok (by simp)
      | ok p =>
        rw [hmk] at hok
        cases har : analyzeAux rest with
        | error e => rw [har] at hok; exact absurd hok (by simp)
        | ok ps' =>
          rw [har] at hok
          injection hok with h
          rw [← h]
          exact ⟨p, rfl, by simp [List.lookup_cons]⟩
    · split_ifs at hok with hl
      · exact ih ps hok hnd.2 hmem'
      · cases hmk : mkPattern j vs with
        | error e => rw [hmk] at hok; exact absurd hok (by simp)
        | ok p =>
          rw [hmk] at hok
          cases har : analyzeAux rest with
          | error e => rw [har] at hok; exact absurd hok (by simp)
          | ok ps' =>
            rw [har] at hok
            injection hok with h
            rw [← h]
            have hij : i ≠ j := by
              intro e
              exact hnd.1 (e ▸ List.mem_map.mpr ⟨(i, us), hmem', rfl⟩)
            have hne : (i == j) = false := beq_eq_false_iff_ne.mpr hij
            obtain ⟨p', hp1, hp2⟩ := ih ps' har hnd.2 hmem'
            exact ⟨p', hp1, by simp [List.lookup_cons, hne, hp2]⟩

/-- Helper: the grouped key list is the deduplicated item_id list. -/
theorem groupByItem_keys (usage_history : List UsageRec) :
    (groupByItem usage_history).map Prod.fst =
      (usage_history.map (fun u => u.item_id)).dedup := by
  simp only [groupByItem, List.map_map]
  have : ∀ l : List String,
      l.map (Prod.fst ∘ fun i =>
        (i, usage_history.filter (fun u => u.item_id == i))) = l := by
    intro l
    induction l with
    | nil => rfl
    | cons a t ih => simp [ih]
  exact this _

/-- Claim C5 (weekday completeness): on a successful analysis run, every
item with at least 3 usage records gets a pattern whose daily_averages has
exactly the 7 weekday keys, each weekday absent from the item's history
mapped to the item's overall mean; an item with fewer than 3 records gets no
pattern at all. -/
theorem weekday_completeness (usage_history : List UsageRec)
    (pats : List (String × UsagePattern)) (item_id : String)
    (hok : analyzeUsagePatterns usage_history = .ok pats) :
    (3 ≤ (usage_history.filter (fun u => u.item_id == item_id)).length →
      ∃ p, pats.lookup item_id = some p ∧
        (p.daily_averages.map Prod.fst).Perm weekNames ∧
        ∀ d ∈ weekNames,
          d ∉ (usage_history.filter (fun u => u.item_id == item_id)).map
            (fun u => weekdayName u.date) →
          p.daily_averages.lookup d = some (mean
            ((usage_history.filter (fun u => u.item_id == item_id)).map
              (fun u => u.quantity_used)))) ∧
    ((usage_history.filter (fun u => u.item_id == item_id)).length < 3 →
      pats.lookup item_id = none) := by
  have hnd : ((groupByItem usage_history).map Prod.fst).Nodup := by
    rw [groupByItem_keys]
    exact List.nodup_dedup _
  have hmem_of_in : item_id ∈ (usage_history.map (fun u => u.item_id)).dedup →
      (item_id, usage_history.filter (fun u => u.item_id == item_id)) ∈
        groupByItem usage_history := by
    intro hin
    exact List.mem_map.mpr ⟨item_id, hin, rfl⟩
  constructor
  · intro hlen
    have hne : usage_history.filter (fun u => u.item_id == item_id) ≠ [] := by
      intro e
      rw [e] at hlen
      simp at hlen
    have hin : item_id ∈ (usage_history.map (fun u => u.item_id)).dedup := by
      rw [List.mem_dedup]
      obtain ⟨u, hu⟩ := List.exists_mem_of_ne_nil _ hne
      have hu' := List.mem_filter.mp hu
      exact List.mem_map.mpr ⟨u, hu'.1, by simpa using hu'.2⟩
    obtain ⟨p, hmk, hlook⟩ := analyzeAux_lookup_found _ _ _ _ hok hnd
      (hmem_of_in hin) hlen
    have hda := mkPattern_ok _ _ _ hmk
    refine ⟨p, hlook, ?_, ?_⟩
    · rw [hda]
      exact dailyAverages_keys_perm _
    · intro d hd habs
      rw [hda]
      exact dailyAverages_lookup_absent _ _ hd habs
  · intro hlen
    by_cases hin : item_id ∈ (usage_history.map (fun u => u.item_id)).dedup
    · exact analyzeAux_lookup_short _ _ _ _ hok hnd (hmem_of_in hin) hlen
    · refine analyzeAux_lookup_absent _ _ _ hok ?_
      rw [groupByItem_keys]
      exact hin

theorem weekday_completeness_witness :
    ∃ pats, analyzeUsagePatterns [⟨0, "A", 2⟩, ⟨1, "A", 4⟩, ⟨2, "A", 3⟩] =
        .ok pats ∧
      ∃ p, pats.lookup "A" = some p ∧
        (p.daily_averages.map Prod.fst).Perm weekNames := by
  have hmap : ([⟨0, "A", 2⟩, ⟨1, "A", 4⟩, ⟨2, "A", 3⟩] :
      List UsageRec).map (fun u => u.quantity_used) = [2, 4, 3] := rfl
  have hv : volatility? [2, 4, 3] =
      .ok (sampleVariance [2, 4, 3] / (mean [2, 4, 3]) ^ 2) := by
    rw [volatility?]
    norm_num [mean]
    intro h
    exact absurd h (by simp)
  have hmk : mkPattern "A" [⟨0, "A", 2⟩, ⟨1, "A", 4⟩, ⟨2, "A", 3⟩] =
      .ok ⟨"A", dailyAverages [⟨0, "A", 2⟩, ⟨1, "A", 4⟩, ⟨2, "A", 3⟩],
        calculateTrend [⟨0, "A", 2⟩, ⟨1, "A", 4⟩, ⟨2, "A", 3⟩], 1,
        sampleVariance [2, 4, 3] / (mean [2, 4, 3]) ^ 2⟩ := by
    simp only [mkPattern, hmap, hv]
  have hgroup : groupByItem [⟨0, "A", 2⟩, ⟨1, "A", 4⟩, ⟨2, "A", 3⟩] =
      [("A", [⟨0, "A", 2⟩, ⟨1, "A", 4⟩, ⟨2, "A", 3⟩])] := rfl
  have hok : analyzeUsagePatterns [⟨0, "A", 2⟩, ⟨1, "A", 4⟩, ⟨2, "A", 3⟩] =
      .ok [("A", ⟨"A", dailyAverages [⟨0, "A", 2⟩, ⟨1, "A", 4⟩, ⟨2, "A", 3⟩],
        calculateTrend [⟨0, "A", 2⟩, ⟨1, "A", 4⟩, ⟨2, "A", 3⟩], 1,
        sampleVariance [2, 4, 3] / (mean [2, 4, 3]) ^ 2⟩)] := by
    rw [analyzeUsagePatterns, hgroup]
    simp only [analyzeAux, hmk]
    norm_num
  obtain ⟨hq, -⟩ := weekday_completeness
    [⟨0, "A", 2⟩, ⟨1, "A", 4⟩, ⟨2, "A", 3⟩] _ "A" hok
  obtain ⟨p, hl, hperm, -⟩ := hq (by decide)
  exact ⟨_, hok, p, hl, hperm⟩

/-- Helper: the calculation_error slot of a row with a successful stock
lookup, in terms of the resolved delivery. -/
theorem rowAudit_calcError_at (stock : List StockRow)
    (deliveries : List DeliveryRow) (r : ConsumptionRow) (c : ℚ)
    (hs : stockLookup stock r.item r.date = some c) :
    (rowAudit stock deliveries r).2.2.1 =
      (if |r.previous_stock - r.consumption + resolvedDelivery deliveries r
          - c| > 0.01 then
        some ⟨r.date, r.item, r.previous_stock, r.consumption,
          resolvedDelivery deliveries r,
          r.previous_stock - r.consumption + resolvedDelivery deliveries r,
          c⟩
      else none) := by
  simp only [rowAudit, hs, resolvedDelivery]

/-- Helper: a calculation_error emitted for a row carries that row's date
and item. -/
theorem rowAudit_calcError_tags (stock : List StockRow)
    (deliveries : List DeliveryRow) (r : ConsumptionRow) (e : CalcError)
    (h : (rowAudit stock deliveries r).2.2.1 = some e) :
    e.date = r.date ∧ e.item = r.item := by
  cases hs : stockLookup stock r.item r.date with
  | none =>
    simp only [rowAudit, hs] at h
    exact absurd h (by simp)
  | some c =>
    rw [rowAudit_calcError_at stock deliveries r c hs] at h
    split_ifs at h with hc
    injection h with h'
    rw [← h']
    exact ⟨rfl, rfl⟩

/-- Helper: a sum over a duplicate-free index list with a single possibly
nonzero index collapses to that index's value. -/
theorem sum_map_single {l : List String} (hnd : l.Nodup) {i : String}
    (hi : i ∈ l) (f : String → ℕ) (hz : ∀ j ∈ l, j ≠ i → f j = 0) :
    (l.map f).sum = f i := by
  induction l with
  | nil => cases hi
  | cons a t ih =>
    rw [List.nodup_cons] at hnd
    rcases List.mem_cons.mp hi with rfl | hit
    · have hzt : ∀ j ∈ t, f j = 0 := fun j hj =>
        hz j (List.mem_cons_of_mem _ hj) (fun e => hnd.1 (e ▸ hj))
      have ht : (t.map f).sum = 0 := by
        apply List.sum_eq_zero
        intro x hx
        obtain ⟨j, hj, rfl⟩ := List.mem_map.mp hx
        exact hzt j hj
      simp [ht]
    · have hai : a ≠ i := fun e => hnd.1 (e ▸ hit)
      have ha : f a = 0 := hz a (List.mem_cons_self _ _) hai
      have := ih hnd.2 hit
        (fun j hj hne => hz j (List.mem_cons_of_mem _ hj) hne)
      simp [ha, this]

/-- Helper: countP respects pointwise equal predicates. -/
theorem countP_pointwise {α : Type} {l : List α} {p q : α → Bool}
    (h : ∀ a ∈ l, p a = q a) : l.countP p = l.countP q := by
  induction l with
  | nil => rfl
  | cons a t ih =>
    rw [List.countP_cons, List.countP_cons, h a (List.mem_cons_self _ _),
      ih (fun x hx => h x (List.mem_cons_of_mem _ hx))]

/-- Helper: the auditor's calculation_error count for one (date, item) with
a unique consumption row and a resolvable stock reading is decided by the
0.01 tolerance check on that row alone. -/
theorem calcError_count_char (cons : List ConsumptionRow)
    (stock : List StockRow) (deliveries : List DeliveryRow)
    (d : ℕ) (i : String) (rc : ConsumptionRow) (c : ℚ)
    (huniq : cons.filter (fun r => r.date == d && r.item == i) = [rc])
    (hstock : stockLookup stock i d = some c) :
    calcErrorCount (auditStockConsistency cons stock deliveries) d i =
      if |rc.previous_stock - rc.consumption
          + resolvedDelivery deliveries rc - c| > 0.01 then 1 else 0 := by
  have hrcf : rc ∈ cons.filter (fun r => r.date == d && r.item == i) := by
    rw [huniq]; exact List.mem_singleton.mpr rfl
  have hrc := List.mem_filter.mp hrcf
  have hrd : rc.date = d := by
    have := hrc.2
    simp only [Bool.and_eq_true, beq_iff_eq] at this
    exact this.1
  have hri : rc.item = i := by
    have := hrc.2
    simp only [Bool.and_eq_true, beq_iff_eq] at this
    exact this.2
  have hndu : (uniqueItems cons).Nodup := List.nodup_dedup _
  have hiu : i ∈ uniqueItems cons := by
    rw [uniqueItems, List.mem_dedup]
    exact List.mem_map.mpr ⟨rc, hrc.1, hri⟩
  simp only [calcErrorCount, auditStockConsistency]
  rw [List.countP_flatten, List.map_map]
  rw [sum_map_single hndu hiu _ ?hz]
  case hz =>
    intro j hj hne
    simp only [Function.comp]
    rw [List.countP_eq_zero]
    intro e he
    obtain ⟨r, hr, hfr⟩ := List.mem_filterMap.mp he
    have hrj : r.item = j := by
      have := (List.perm_insertionSort _ _).mem_iff.mp hr
      simpa using (List.mem_filter.mp this).2
    have htags := rowAudit_calcError_tags stock deliveries r e hfr
    simp only [Bool.and_eq_true, beq_iff_eq, not_and]
    intro _
    rw [htags.2, hrj]
    exact hne
  simp only [Function.comp]
  rw [List.countP_filterMap]
  simp only [itemConsumptionSorted]
  rw [(List.perm_insertionSort (fun a b : ConsumptionRow => a.date ≤ b.date)
    (cons.filter (fun r => r.item == i))).countP_eq]
  rw [List.countP_filter]
  rw [countP_pointwise (q := fun r =>
    (Option.map (fun e : CalcError => e.date == d && e.item == i)
      ((rowAudit stock deliveries r).2.2.1)).getD false
    && (r.date == d && r.item == i)) ?hpt]
  case hpt =>
    intro r _
    cases hq : (Option.map (fun e : CalcError => e.date == d && e.item == i)
        ((rowAudit stock deliveries r).2.2.1)).getD false with
    | false => simp [hq]
    | true =>
      cases hf : (rowAudit stock deliveries r).2.2.1 with
      | none => rw [hf] at hq; simp at hq
      | some e =>
        rw [hf] at hq
        simp only [Option.map_some', Option.getD_some] at hq
        have htags := rowAudit_calcError_tags stock deliveries r e hf
        simp only [Bool.and_eq_true, beq_iff_eq] at hq
        have : r.date = d := by rw [← htags.1]; exact hq.1
        have hritem : r.item = i := by rw [← htags.2]; exact hq.2
        simp [this, hritem]
        rw [hf]
        simp [hq.1, hq.2]
  rw [← List.countP_filter, huniq]
  have hsrc : stockLookup stock rc.item rc.date = some c := by
    rw [hrd, hri]; exact hstock
  rw [List.countP_cons, List.countP_nil]
  rw [rowAudit_calcError_at stock deliveries rc c hsrc]
  by_cases hc : |rc.previous_stock - rc.consumption
      + resolvedDelivery deliveries rc - c| > 0.01
  · simp [hc, hrd, hri]
  · simp [hc]

/-- Claim C3 (audit round-trip): if the unique consumption row for a
(date, item) satisfies `previous_stock - consumption + delivery =
current_stock` exactly — with the delivery resolved from the ledger when the
row's own delivery field is 0 and the ledger is positive — the auditor
reports zero calculation_errors for that (date, item); and any stock store
whose reading for that (date, item) differs from the balancing value by more
than 0.01 yields exactly one calculation_error for it. -/
theorem audit_round_trip (cons : List ConsumptionRow)
    (stock : List StockRow) (deliveries : List DeliveryRow)
    (d : ℕ) (i : String) (rc : ConsumptionRow) (c : ℚ)
    (huniq : cons.filter (fun r => r.date == d && r.item == i) = [rc])
    (hstock : stockLookup stock i d = some c)
    (hbal : rc.previous_stock - rc.consumption
      + resolvedDelivery deliveries rc = c) :
    calcErrorCount (auditStockConsistency cons stock deliveries) d i = 0 ∧
    ∀ (stock' : List StockRow) (c' : ℚ),
      stockLookup stock' i d = some c' → |c' - c| > 0.01 →
      calcErrorCount (auditStockConsistency cons stock' deliveries) d i
        = 1 := by
  constructor
  · rw [calcError_count_char cons stock deliveries d i rc c huniq hstock]
    rw [if_neg]
    rw [hbal]
    norm_num
  · intro stock' c' hs' hp
    rw [calcError_count_char cons stock' deliveries d i rc c' huniq hs']
    rw [if_pos]
    rw [hbal]
    rw [abs_sub_comm]
    exact hp

theorem audit_round_trip_witness :
    calcErrorCount (auditStockConsistency [⟨1, "A", 2, 0, 10, 8⟩]
      [⟨1, "A", 8⟩] []) 1 "A" = 0 ∧
    calcErrorCount (auditStockConsistency [⟨1, "A", 2, 0, 10, 8⟩]
      [⟨1, "A", 9⟩] []) 1 "A" = 1 := by
  have h := audit_round_trip [⟨1, "A", 2, 0, 10, 8⟩] [⟨1, "A", 8⟩] []
    1 "A" ⟨1, "A", 2, 0, 10, 8⟩ 8 rfl rfl
    (by norm_num [resolvedDelivery, deliverySum])
  exact ⟨h.1, h.2 [⟨1, "A", 9⟩] 9 rfl (by norm_num)⟩

/-- Claim C9 counterexample: calling the usage predictor with an item_id
that has no pattern and no usage history returns the value 0.0 — it is
silently absorbed, not propagated as a "not found" error (the source has no
raise on this path at all). -/
theorem predict_unknown_returns_zero :
    predictUsage [] [] 0 "UNKNOWN" 7 = 0 := rfl

/-- Claim C9 as amended: for every item_id with no pattern and no usage
history, predict_usage returns 0.0 (a value, silently) instead of signalling
a "not found" error to the caller. -/
theorem predict_unknown_amended (patterns : List (String × UsagePattern))
    (usage_history : List UsageRec) (today : ℕ) (item_id : String)
    (days_ahead : ℕ)
    (hp : patterns.lookup item_id = none)
    (hh : usage_history.filter (fun u => u.item_id == item_id) = []) :
    predictUsage patterns usage_history today item_id days_ahead = 0 := by
  simp [predictUsage, hp, hh]

theorem predict_unknown_amended_witness :
    predictUsage [] [⟨0, "A", 1⟩] 0 "GHOST" 7 = 0 :=
  predict_unknown_amended [] [⟨0, "A", 1⟩] 0 "GHOST" 7 rfl (by decide)

/-- Claim C7 counterexample: in the capacity-target engine variant, an item
with current stock 8, max capacity 10, average daily consumption 1 and lead
time 7 gets a recommended quantity of 7, exceeding
`max(0, max_capacity - current_stock) = 2` — the engine variant never clamps
to the capacity gap. -/
theorem engine_qty_exceeds_capacity_gap :
    ¬ (engineRecommendedQuantity 8 10 1 7 ≤ max 0 ((10:ℚ) - 8)) := by
  norm_num [engineRecommendedQuantity, round1]

/-- Claim C7 as amended: the bounds `0 ≤ recommended_quantity ≤
max(0, max_capacity - current_stock)` hold for every recommendation emitted
by the forecasting-engine variant; the capacity-target engine variant
guarantees only the lower bound 0 (its quantity can exceed the capacity
gap). -/
theorem recommendation_bounds (patterns : List (String × UsagePattern))
    (usage_history : List UsageRec) (order_history : List DeliveryOrder)
    (suppliers : List (String × String)) (today : ℕ)
    (item : InventoryItem) :
    (∀ rec, recommendationFor patterns usage_history order_history suppliers
        today item = some rec →
      0 ≤ rec.recommended_quantity ∧
      rec.recommended_quantity ≤
        max 0 (item.max_capacity - item.current_stock)) ∧
    (∀ current_stock max_capacity avg_consumption lead_time : ℚ,
      0 ≤ engineRecommendedQuantity current_stock max_capacity
        avg_consumption lead_time) := by
  constructor
  · intro rec h
    simp only [recommendationFor] at h
    split_ifs at h with hq
    · injection h with h'
      subst h'
      exact ⟨le_of_lt hq, le_trans (min_le_right _ _) (le_max_right _ _)⟩
  · intro current_stock max_capacity avg_consumption lead_time
    exact le_max_left 0 _

theorem recommendation_bounds_witness :
    recommendationFor [] [] [] [] 0 ⟨"X", "X item", 2, 5, 10, 3, "S1", 7⟩ =
      some ⟨"X", "X item", 2, 0, 999, 8, "critical", "Unknown", 24⟩ ∧
    (0:ℚ) ≤ 8 ∧ (8:ℚ) ≤ max 0 (10 - 2) := by
  have hsome : recommendationFor [] [] [] [] 0
      ⟨"X", "X item", 2, 5, 10, 3, "S1", 7⟩ =
      some ⟨"X", "X item", 2, 0, 999, 8, "critical", "Unknown", 24⟩ := by
    norm_num [recommendationFor, reorderFrequency, predictUsage,
      daysUntilReorder, recommendedQtyPreClamp, urgencyFor, pyInt,
      List.lookup]
  have h := (recommendation_bounds [] [] [] [] 0
    ⟨"X", "X item", 2, 5, 10, 3, "S1", 7⟩).1 _ hsome
  exact ⟨hsome, h.1, by simpa using h.2⟩

/-- Claim C8 (urgency precedence): an item at or below its minimum threshold
is always classified "critical" — both in the branch functions (for every
days_until_reorder, cadence and lead time) and in any recommendation the
engine emits for it — and its pre-clamp recommended quantity is
`max(historical_avg_quantity, max_capacity * 0.8)`. -/
theorem urgency_precedence (patterns : List (String × UsagePattern))
    (usage_history : List UsageRec) (order_history : List DeliveryOrder)
    (suppliers : List (String × String)) (today : ℕ)
    (item : InventoryItem)
    (h : item.current_stock ≤ item.min_threshold) :
    (∀ rec, recommendationFor patterns usage_history order_history suppliers
        today item = some rec → rec.urgency_level = "critical") ∧
    (∀ avg_reorder_days days_until_reorder,
      urgencyFor item avg_reorder_days days_until_reorder = "critical") ∧
    (∀ avg_reorder_days avg_quantity days_until_reorder,
      recommendedQtyPreClamp item avg_reorder_days avg_quantity
        days_until_reorder =
        max avg_quantity (item.max_capacity * 0.8)) := by
  refine ⟨?_, fun a d => by simp [urgencyFor, h],
    fun a q d => by simp [recommendedQtyPreClamp, h]⟩
  intro rec hrec
  simp only [recommendationFor] at hrec
  split_ifs at hrec with hq
  · injection hrec with h'
    subst h'
    simp [urgencyFor, h]

theorem urgency_precedence_witness :
    urgencyFor ⟨"X", "X item", 2, 5, 10, 3, "S1", 7⟩ 14 999 = "critical" :=
  (urgency_precedence [] [] [] [] 0 ⟨"X", "X item", 2, 5, 10, 3, "S1", 7⟩
    (by norm_num)).2.1 14 999

/-- Claim C6: on an all-zero usage history with at least 3 points the
volatility line `statistics.stdev(xs) / statistics.mean(xs)` divides by a
zero mean, so analyze_usage_patterns raises ZeroDivisionError instead of
producing volatility 0 — the guard only checks that the list is nonempty,
not that its mean is nonzero. -/
theorem volatility_zero_mean_crash :
    analyzeUsagePatterns [⟨0, "A", 0⟩, ⟨1, "A", 0⟩, ⟨2, "A", 0⟩] =
      .error "ZeroDivisionError" := by
  norm_num [analyzeUsagePatterns, groupByItem, analyzeAux, mkPattern,
    volatility?, mean, List.dedup_cons_of_mem, List.dedup_cons_of_not_mem]
  simp

/-- Claim C10 counterexample: a stored snapshot for date 5, item "B" does NOT
remain after a write for date 5 that only covers item "A" — the source drops
every snapshot with the written date, not only those whose (date, item_id)
key is overwritten. -/
theorem snapshot_other_item_dropped :
    (addInventorySnapshot [⟨5, "B", 3, 0, 0, ""⟩] 5
      [⟨5, "A", 2, 0, 0, ""⟩]).map (fun s => s.item_id) = ["A"] := by
  simp [addInventorySnapshot, List.insertionSort, List.orderedInsert]

/-- Claim C10 as amended: adding a snapshot for a date replaces ALL stored
snapshots with that date (regardless of item_id); the resulting store is a
permutation of the differently-dated survivors plus the new records, so every
snapshot with a different date remains unchanged, while same-date snapshots
for items absent from the write are removed (refuting the original claim's
frame condition). -/
theorem snapshot_replace_by_date (store : List Snapshot) (date : ℕ)
    (write : List Snapshot) :
    (addInventorySnapshot store date write).Perm
      (store.filter (fun s => decide (s.date ≠ date))
        ++ write.map (fun e => { e with date := date })) ∧
    ∀ s ∈ store, s.date ≠ date →
      s ∈ addInventorySnapshot store date write := by
  have hperm := List.perm_insertionSort
    (fun a b : Snapshot => a.date ≤ b.date)
    ((store.filter (fun s => decide (s.date ≠ date)))
      ++ write.map (fun e => { e with date := date }))
  refine ⟨hperm, fun s hs hne => ?_⟩
  have : s ∈ store.filter (fun s => decide (s.date ≠ date)) :=
    List.mem_filter.mpr ⟨hs, by simpa using hne⟩
  exact hperm.mem_iff.mpr (List.mem_append_left _ this)

/-- Claim C4 counterexample: for prev_stock 7, ledger delivery 0, curr_stock
15 the reconciler does emit usage 0 with confidence "low", but its note is
the fixed string "Negative usage calculated - check inventory counts" — it
does not mention an implied delivery of 8 (the digit 8 does not even occur in
the note), refuting the claimed annotation. -/
theorem implied_delivery_note_missing :
    (calcDailyUsage [] [("I1", (100:ℚ))] ⟨0, "I1", 7, 0, 0, ""⟩
      ⟨1, "I1", 15, 0, 0, ""⟩ "I1").calculated_usage = 0 ∧
    (calcDailyUsage [] [("I1", (100:ℚ))] ⟨0, "I1", 7, 0, 0, ""⟩
      ⟨1, "I1", 15, 0, 0, ""⟩ "I1").confidence_level = "low" ∧
    (calcDailyUsage [] [("I1", (100:ℚ))] ⟨0, "I1", 7, 0, 0, ""⟩
      ⟨1, "I1", 15, 0, 0, ""⟩ "I1").notes =
      "Negative usage calculated - check inventory counts" ∧
    '8' ∉ ("Negative usage calculated - check inventory counts").data := by
  have hD : getDeliveriesBetweenDates [] 0 1 "I1" = 0 := by
    simp [getDeliveriesBetweenDates]
  have hrec := calcDailyUsage_negative_case [] [("I1", (100:ℚ))]
    ⟨0, "I1", 7, 0, 0, ""⟩ ⟨1, "I1", 15, 0, 0, ""⟩ "I1" 100
    (by simp [List.lookup]) (by norm_num) (by rw [hD]; norm_num)
  refine ⟨by rw [hrec], by rw [hrec], ?_, by decide⟩
  rw [hrec]
  norm_num [hD]
  rfl

/-- Claim C4 as amended: when raw usage is negative, interval ledger
deliveries are 0 and stock rose, the usage-calculator reconciler emits usage
0 and confidence "low" but annotates only a fixed warning note that does NOT
state the implied delivery amount; the inventory-engine variant instead
writes the implied delivery (curr - prev) into the emitted record's own
Delivery_Amount field with consumption 0. Neither writes to the delivery
ledger (both embedded functions are pure readers of it). -/
theorem implied_delivery_annotation
    (order_history : List DeliveryOrder) (inventory_items : List (String × ℚ))
    (prev curr : Snapshot) (item_id : String) (c : ℚ)
    (hcap : inventory_items.lookup item_id = some c) (hc : 0 ≤ c)
    (hD : getDeliveriesBetweenDates order_history prev.date curr.date item_id
      = 0)
    (hw : curr.waste_amount = 0)
    (hrise : prev.stock_level < curr.stock_level)
    (hps : 0 ≤ prev.stock_level) :
    (calcDailyUsage order_history inventory_items prev curr
      item_id).calculated_usage = 0 ∧
    (calcDailyUsage order_history inventory_items prev curr
      item_id).confidence_level = "low" ∧
    (calcDailyUsage order_history inventory_items prev curr
      item_id).notes =
      "Negative usage calculated - check inventory counts" ∧
    engineConsumptionStep prev.stock_level curr.stock_level 0 =
      { consumption := 0
        stock_before_delivery := round1 prev.stock_level
        delivery_amount := round1 (curr.stock_level - prev.stock_level)
        previous_stock := round1 prev.stock_level } := by
  have hraw : prev.stock_level
      + getDeliveriesBetweenDates order_history prev.date curr.date item_id
      - curr.stock_level - curr.waste_amount < 0 := by
    rw [hD, hw]; linarith
  have hhi : ¬ ((0:ℚ) > c * 0.8) := by
    push_neg
    have : (0:ℚ) ≤ c * 0.8 := by positivity
    linarith
  have hrec := calcDailyUsage_negative_case order_history inventory_items
    prev curr item_id c hcap hc hraw
  refine ⟨?_, ?_, ?_, ?_⟩
  · rw [hrec]
  · rw [hrec]
  · rw [hrec]
    simp only [hD, hw]
    norm_num
    rfl
  · have h1 : prev.stock_level + 0 - curr.stock_level < 0 := by linarith
    have h2 : ¬ ((0:ℚ) > 0) := by norm_num
    have h3 : curr.stock_level - (curr.stock_level - prev.stock_level) =
        prev.stock_level := by ring
    have h4 : ¬ (prev.stock_level < 0) := not_lt.mpr hps
    have h1t : (prev.stock_level + 0 - curr.stock_level < 0) = True :=
      eq_true h1
    have h2t : (¬ ((0:ℚ) > 0)) = True := eq_true h2
    have h4f : (prev.stock_level < 0) = False := eq_false h4
    have hr0 : round1 (0:ℚ) = 0 := by norm_num [round1]
    simp only [engineConsumptionStep, h1t, h2t, true_and, and_true, if_true,
      h3, h4f, if_false, hr0]

theorem implied_delivery_annotation_witness :
    (calcDailyUsage [] [("I1", (100:ℚ))] ⟨0, "I1", 7, 0, 0, ""⟩
      ⟨1, "I1", 15, 0, 0, ""⟩ "I1").confidence_level = "low" ∧
    engineConsumptionStep 7 15 0 =
      { consumption := 0, stock_before_delivery := round1 (7:ℚ),
        delivery_amount := round1 ((15:ℚ) - 7), previous_stock := round1 7 } := by
  have h := implied_delivery_annotation [] [("I1", (100:ℚ))]
    ⟨0, "I1", 7, 0, 0, ""⟩ ⟨1, "I1", 15, 0, 0, ""⟩ "I1" 100
    (by simp [List.lookup]) (by norm_num)
    (by simp [getDeliveriesBetweenDates]) rfl (by norm_num) (by norm_num)
  exact ⟨h.2.1, h.2.2.2⟩

theorem snapshot_replace_by_date_witness :
    (⟨4, "B", 3, 0, 0, ""⟩ : Snapshot) ∈
      addInventorySnapshot [⟨4, "B", 3, 0, 0, ""⟩] 5
        [⟨5, "A", 2, 0, 0, ""⟩] :=
  (snapshot_replace_by_date [⟨4, "B", 3, 0, 0, ""⟩] 5
    [⟨5, "A", 2, 0, 0, ""⟩]).2 _ (List.mem_singleton.mpr rfl) (by decide)

end CafeManager
